import Mathlib

/-!
Verification of the DNAC client core (token lifecycle, response-envelope
normalization, paginated full-collection fetch, task polling, version gate)
against a shallow embedding of `src/dnac.rs`, `src/devices.rs`,
`src/sites.rs` and `src/platform.rs`.

External effects (HTTP transport, the JWT library, the token file, the
system clock) are passed in as explicit outcome values: a network call
becomes an `Except Unit _` argument holding what the call would have
returned, the clock becomes a `now : Nat` argument, and a Rust `panic!`
(`unwrap` / `expect`) becomes a dedicated error constructor, since it too
aborts the surrounding computation.  Unbounded `loop`s take a fuel
argument and return `none` when the fuel runs out.
-/

namespace Dnac

/-- JSON values, standing for `serde_json::Value`: the wire format every
response body is decoded from. -/
inductive Json where
  | null
  | bool (b : Bool)
  | num (n : Int)
  | str (s : String)
  | arr (items : List Json)
  | obj (fields : List (String × Json))

/-- Look up a field of a JSON object (first binding wins), as serde does
when it decodes a struct field. -/
def Json.getField (j : Json) (key : String) : Option Json :=
  match j with
  | Json.obj fields => (fields.find? (fun f => f.1 == key)).map (fun f => f.2)
  | _ => none

/-- Decode a JSON value as a string. -/
def Json.asStr : Json → Option String
  | Json.str s => some s
  | _ => none

/-- Decode a JSON value as a boolean (used as a sample item decoder in
concrete instances). -/
def Json.asBool : Json → Option Bool
  | Json.bool b => some b
  | _ => none

/-- Decode a list of JSON values element by element, failing as soon as
one element fails, as serde decodes the elements of a `Vec<T>`. -/
def decodeElems {T : Type} (dec : Json → Option T) : List Json → Option (List T)
  | [] => some []
  | j :: rest =>
    match dec j, decodeElems dec rest with
    | some x, some xs => some (x :: xs)
    | _, _ => none

/-- Decode a JSON value as an array of elements, each decoded by `dec`;
this is serde's `Vec<T>` shape, which fails unless the value is an array
and every element decodes. -/
def Json.decodeList {T : Type} (dec : Json → Option T) : Json → Option (List T)
  | Json.arr items => decodeElems dec items
  | _ => none

/-- `ResponseType<T>` of `src/dnac.rs` (lines 36-41): the controller's
untagged single-or-array payload, `#[serde(untagged)]` with the `Array`
variant declared before `Item`. -/
inductive ResponseType (T : Type) where
  | Array (items : List T)
  | Item (item : T)

/-- Serde's untagged decoding of `ResponseType<T>`: variants are attempted
in declaration order, so the array shape is tried first and the
single-item shape only when the array shape fails. -/
def decodeResponseType {T : Type} (dec : Json → Option T) (j : Json) : Option (ResponseType T) :=
  match Json.decodeList dec j with
  | some items => some (ResponseType.Array items)
  | none => (dec j).map ResponseType.Item

/-- Serialization of `ResponseType<T>`: an untagged enum serializes as the
bare variant payload. -/
def encodeResponseType {T : Type} (enc : T → Json) : ResponseType T → Json
  | ResponseType.Array items => Json.arr (items.map enc)
  | ResponseType.Item item => enc item

/-- `Response<T>` of `src/dnac.rs` (lines 31-34): the envelope object whose
single `response` field holds the untagged payload. -/
structure Response (T : Type) where
  response : ResponseType T

/-- Decode the envelope `{ "response": <value> }`. -/
def decodeResponse {T : Type} (dec : Json → Option T) (j : Json) : Option (Response T) :=
  match j.getField ("response") with
  | some v => (decodeResponseType dec v).map (fun rt => { response := rt })
  | none => none

/-- Encode the envelope `{ "response": <value> }`. -/
def encodeResponse {T : Type} (enc : T → Json) (r : Response T) : Json :=
  Json.obj [(("response"), encodeResponseType enc r.response)]

/-- The normalization applied by callers that need a sequence, e.g.
`get_device_list` in `src/devices.rs` (lines 109-112): an `Array` payload
is taken as is, an `Item` payload becomes a one-element sequence. -/
def ResponseType.toList {T : Type} : ResponseType T → List T
  | ResponseType.Array items => items
  | ResponseType.Item item => [item]

/-- Whether a JSON value is an array (the shape serde's `Vec<T>` attempt
matches on). -/
def Json.isArr : Json → Bool
  | Json.arr _ => true
  | _ => false

/-- `ApiErrorResponse` of `src/dnac.rs` (lines 49-55). -/
structure ApiErrorResponse where
  error_code : String
  message : String
  href : String
deriving DecidableEq

/-- `ApiError` of `src/dnac.rs` (lines 43-47): the controller's structured
error body. -/
structure ApiError where
  message : List String
  response : ApiErrorResponse
deriving DecidableEq

/-- Serde decoding of `ApiErrorResponse` from
`{ "errorCode": _, "message": _, "href": _ }`. -/
def decodeApiErrorResponse (j : Json) : Option ApiErrorResponse := do
  let ec ← (j.getField ("errorCode")).bind Json.asStr
  let msg ← (j.getField ("message")).bind Json.asStr
  let href ← (j.getField ("href")).bind Json.asStr
  pure { error_code := ec, message := msg, href := href }

/-- Serde decoding of `ApiError` from
`{ "message": [..], "response": { .. } }`. -/
def decodeApiError (j : Json) : Option ApiError := do
  let msgs ← (j.getField ("message")).bind (Json.decodeList Json.asStr)
  let resp ← (j.getField ("response")).bind decodeApiErrorResponse
  pure { message := msgs, response := resp }

/-- `TaskInfo` of `src/dnac.rs` (lines 68-74): the task handle a write
operation returns. -/
structure TaskInfo where
  task_id : String
  url : String
deriving DecidableEq

/-- Serde decoding of `TaskInfo` from `{ "taskId": _, "url": _ }`. -/
def decodeTaskInfo (j : Json) : Option TaskInfo := do
  let tid ← (j.getField ("taskId")).bind Json.asStr
  let url ← (j.getField ("url")).bind Json.asStr
  pure { task_id := tid, url := url }

/-- `Task` of `src/dnac.rs` (lines 76-109): one node of the controller's
task tree.  `operation_id_list` is a raw `serde_json::Value` in the
source, embedded here as `Json`. -/
structure Task where
  id : String
  additional_status_url : Option String
  data : Option String
  end_time : Option Nat
  error_code : Option String
  error_key : Option String
  failure_reason : Option String
  instance_tenant_id : String
  is_error : Bool
  last_update : Option Nat
  operation_id_list : Option Json
  parent_id : Option String
  progress : String
  root_id : Option String
  service_type : String
  start_time : Nat
  username : Option String
  version : Nat

/-- `Pagination` of `src/dnac.rs` (lines 57-61). -/
structure Pagination where
  offset : Nat
  limit : Nat
deriving DecidableEq

/-- `PaginationBuilder` of `src/dnac.rs` (lines 63-66). -/
structure PaginationBuilder where
  offset : Nat
  limit : Nat
deriving DecidableEq

/-- `impl Default for Pagination` (lines 367-374): `limit = 500`,
`offset = 1`. -/
def Pagination.default : Pagination :=
  { limit := 500, offset := 1 }

/-- `Pagination::builder` (lines 377-383): a builder seeded with the
default offset and limit. -/
def Pagination.builder : PaginationBuilder :=
  { offset := Pagination.default.offset, limit := Pagination.default.limit }

/-- `Pagination::set_limit` (lines 385-387): mutates the limit of an
already-built value (`&mut self` in the source, functional update here). -/
def Pagination.set_limit (p : Pagination) (limit : Nat) : Pagination :=
  { p with limit := limit }

/-- `Pagination::set_offset` (lines 389-391): mutates the offset of an
already-built value (`&mut self` in the source, functional update here). -/
def Pagination.set_offset (p : Pagination) (offset : Nat) : Pagination :=
  { p with offset := offset }

/-- `PaginationBuilder::with_limit` (lines 395-398): stores the given
limit unchanged, with no validation. -/
def PaginationBuilder.with_limit (b : PaginationBuilder) (limit : Nat) : PaginationBuilder :=
  { b with limit := limit }

/-- `PaginationBuilder::with_offset` (lines 400-403): stores the given
offset unchanged, with no validation. -/
def PaginationBuilder.with_offset (b : PaginationBuilder) (offset : Nat) : PaginationBuilder :=
  { b with offset := offset }

/-- `PaginationBuilder::build` (lines 405-410). -/
def PaginationBuilder.build (b : PaginationBuilder) : Pagination :=
  { offset := b.offset, limit := b.limit }

/-- The raw JWT credential string: `raw` is the wire text; `claims` is the
outcome the external `jwt::Token::parse_unverified` call produces on it
(`none` when the text is not a decodable JWT; `some c` when it yields
registered claims whose `expiration` field is `c`). -/
structure JwtText where
  raw : String
  claims : Option (Option Nat)
deriving DecidableEq

/-- `Token` of `src/dnac.rs` (lines 14-19): the JWT string (field `Token`
on the wire) together with the optional parsed expiry claim `exp`. -/
structure Token where
  token : JwtText
  exp : Option Nat
deriving DecidableEq

/-- `Token::parse` (lines 330-334): re-parses the JWT string and stores
its expiry claim in `exp`.  The source `unwrap`s twice — once on the JWT
parse, once on the missing `expiration` claim — so either failure is a
panic, embedded as `none`. -/
def Token.parse (t : Token) : Option Token :=
  match t.token.claims with
  | none => none
  | some none => none
  | some (some e) => some { t with exp := some e }

/-- `Token::valid` (lines 345-351): a token is valid iff a parsed expiry
exists and is strictly greater than the current timestamp. -/
def Token.valid (t : Token) (now : Nat) : Bool :=
  match t.exp with
  | some exp => decide (now < exp)
  | none => false

/-- `Token::valid_for` (lines 353-364): the remaining lifetime in seconds,
`exp - now` when the expiry is strictly in the future and `0` otherwise
(also `0` when no expiry has been parsed). -/
def Token.valid_for (t : Token) (now : Nat) : Nat :=
  match t.exp with
  | some exp => if now < exp then exp - now else 0
  | none => 0

/-- `ReleaseSummary` of `src/platform.rs` (lines 6-27). -/
structure ReleaseSummary where
  name : String
  core_packages : List String
  display_name : String
  display_version : String
  packages : List String
  previous_version : Option String
  supported_direct_updates : List String
  system_packages : List String
  system_version : String
  tenant_id : String
  installed_version : String
deriving DecidableEq

/-- `SUPPORTED_VERSIONS` of `src/dnac.rs` (line 12). -/
def SUPPORTED_VERSIONS : List String :=
  [("2.3.7.5"), ("2.3.7.6")]

/-- Rust's `str::contains(&str)`: substring containment, embedded as the
decidable infix relation on the character lists. -/
def strContains (hay needle : String) : Bool :=
  decide (needle.data <:+: hay.data)

/-- The trailing-slash normalization of the controller URL in `DNAC::new`
(lines 125-129): `strip_suffix("/")` removes one trailing slash. -/
def stripSuffixSlash (s : String) : String :=
  if s.endsWith ("/") then s.dropRight 1 else s

/-- `DNAC` of `src/dnac.rs` (lines 21-29), without the `reqwest` client
(external transport state). -/
structure DNAC where
  token : Token
  token_file : String
  dnac : String
  user : String
  password : String

/-- One HTTP response as the transport hands it to the client: the status
code and the JSON body. -/
structure HttpResponse where
  status : Nat
  body : Json

/-- Failures of `DNAC::get` (lines 210-251).  In the source every arm is
an `anyhow::Error`; `api` is the typed `ApiError` callers can downcast
to, the rest are generic transport failures (`send` covers the network
call itself, `decode` a body that does not deserialize). -/
inductive GetError where
  | send
  | decode
  | api (e : ApiError)
deriving DecidableEq

/-- `DNAC::get` (lines 210-251), observed at one response: on HTTP 500 the
body is decoded as `ApiError` and returned as the typed failure; on every
other status the body is decoded as the expected type `T` and returned
when it decodes.  `resp` is the outcome of the `send` call. -/
def DNAC.get {T : Type} (dec : Json → Option T) (resp : Except Unit HttpResponse) :
    Except GetError T :=
  match resp with
  | Except.error _ => Except.error GetError.send
  | Except.ok r =>
    if r.status = 500 then
      match decodeApiError r.body with
      | some e => Except.error (GetError.api e)
      | none => Except.error GetError.decode
    else
      match dec r.body with
      | some v => Except.ok v
      | none => Except.error GetError.decode

/-- Failures of `DNAC::poll_task` (lines 289-326): a transport error from
one of the status polls, the `anyhow!("Unexpected response")` arm for a
non-array task tree, and the `anyhow!("Task failed")` arm for a terminal
tree with an errored task. -/
inductive PollError where
  | transport
  | unexpectedResponse
  | taskFailed
deriving DecidableEq

/-- The polling loop of `DNAC::poll_task` (lines 297-323).  `resp i` is the
outcome of the `i`-th re-fetch of the task tree, `t` the tree currently
held; the fuel bounds the number of iterations (the source loops without
bound), `none` meaning the fuel ran out while the tree was non-terminal. -/
def pollTaskLoop (resp : Nat → Except Unit (ResponseType Task)) :
    Nat → Nat → ResponseType Task → Option (Except PollError Unit)
  | 0, _, _ => none
  | fuel + 1, i, t =>
    match t with
    | ResponseType.Array inner_tasks =>
      if inner_tasks.all (fun t => t.end_time.isSome) then
        if inner_tasks.any (fun t => t.is_error) then
          some (Except.error PollError.taskFailed)
        else
          some (Except.ok ())
      else
        match resp i with
        | Except.error _ => some (Except.error PollError.transport)
        | Except.ok t' => pollTaskLoop resp fuel (i + 1) t'
    | ResponseType.Item _ => some (Except.error PollError.unexpectedResponse)

/-- `DNAC::poll_task` (lines 289-326): appends `/tree/` to the task URL,
fetches the task tree once, then loops.  `taskResp url i` is the outcome
of the `i`-th GET of `url` (index 0 is the initial fetch on line 292). -/
def DNAC.poll_task (taskResp : String → Nat → Except Unit (ResponseType Task))
    (task_info : TaskInfo) (fuel : Nat) : Option (Except PollError Unit) :=
  let url := task_info.url ++ ("/tree/")
  match taskResp url 0 with
  | Except.error _ => some (Except.error PollError.transport)
  | Except.ok t => pollTaskLoop (taskResp url) fuel 1 t

/-- Failures of `DNAC::post` (lines 254-287): the typed `ApiError` on
HTTP 500, generic transport failures, the `anyhow!("Unexpected response")`
arm for a task-info payload that is not a single item, and an error
propagated out of the polling loop. -/
inductive PostError where
  | send
  | decode
  | api (e : ApiError)
  | unexpectedResponse
  | poll (e : PollError)
deriving DecidableEq

/-- `DNAC::post` (lines 254-287): on HTTP 500 the body is decoded as
`ApiError` and returned as the typed failure; on every other status, when
`poll` is set the body is decoded as `Response<TaskInfo>` and, for a
single-item payload, `poll_task` is driven to completion; when `poll` is
not set the body is ignored and the call succeeds. -/
def DNAC.post (resp : Except Unit HttpResponse) (poll : Bool)
    (taskResp : String → Nat → Except Unit (ResponseType Task)) (fuel : Nat) :
    Option (Except PostError Unit) :=
  match resp with
  | Except.error _ => some (Except.error PostError.send)
  | Except.ok r =>
    if r.status = 500 then
      match decodeApiError r.body with
      | some e => some (Except.error (PostError.api e))
      | none => some (Except.error PostError.decode)
    else
      if poll then
        match decodeResponse decodeTaskInfo r.body with
        | none => some (Except.error PostError.decode)
        | some response =>
          match response.response with
          | ResponseType.Item task_info =>
            match DNAC.poll_task taskResp task_info fuel with
            | none => none
            | some (Except.ok ()) => some (Except.ok ())
            | some (Except.error e) => some (Except.error (PostError.poll e))
          | ResponseType.Array _ => some (Except.error PostError.unexpectedResponse)
      else
        some (Except.ok ())

/-- Failures of `DNAC::get_token` (lines 185-201): the authentication POST
or its body decode failing (`transport`), the `unwrap`ed JWT parse of the
fresh token panicking (`parsePanic`), or `Token::save` failing
(`saveFailed` — covering both the missing `DNAC_TOKEN_FILE` env var, an
`expect` panic, and a file-write error). -/
inductive GetTokenError where
  | transport
  | parsePanic
  | saveFailed
deriving DecidableEq

/-- `DNAC::get_token` (lines 185-201): POSTs basic credentials to the
auth endpoint, parses the returned token's expiry claim and persists it
before returning it.  `authResult` is the outcome of the POST + body
decode, `saveResult` the outcome of `Token::save`. -/
def DNAC.get_token (authResult : Except Unit Token) (saveResult : Except Unit Unit) :
    Except GetTokenError Token :=
  match authResult with
  | Except.error _ => Except.error GetTokenError.transport
  | Except.ok tok =>
    match tok.parse with
    | none => Except.error GetTokenError.parsePanic
    | some tok' =>
      match saveResult with
      | Except.error _ => Except.error GetTokenError.saveFailed
      | Except.ok _ => Except.ok tok'

/-- Failures of the token-establishment block of `DNAC::new`
(lines 140-163): the `unwrap`ed JWT parse of a loaded token panicking, or
the `unwrap` on a failed `get_token` call panicking (the fallback of last
resort failing — the source's "fail hard"). -/
inductive EstablishError where
  | loadedParsePanic
  | authPanic (e : GetTokenError)
deriving DecidableEq

/-- The token-establishment block of `DNAC::new` (lines 140-163), together
with the number of `get_token` calls it makes: load the cached token; if
it loads, parse it and keep it when it is valid for more than 10 minutes;
otherwise (or when the load failed) fall back to a single `get_token`
call, whose failure is fatal.  `loadResult` is the outcome of
`load_token` (lines 203-208: file open + JSON decode). -/
def DNAC.establishToken (loadResult : Except Unit Token) (now : Nat)
    (authResult : Except Unit Token) (saveResult : Except Unit Unit) :
    Except EstablishError Token × Nat :=
  match loadResult with
  | Except.ok tok =>
    match tok.parse with
    | none => (Except.error EstablishError.loadedParsePanic, 0)
    | some tok' =>
      if tok'.valid now ∧ 60 * 10 < tok'.valid_for now then
        (Except.ok tok', 0)
      else
        match DNAC.get_token authResult saveResult with
        | Except.ok t => (Except.ok t, 1)
        | Except.error e => (Except.error (EstablishError.authPanic e), 1)
  | Except.error _ =>
    match DNAC.get_token authResult saveResult with
    | Except.ok t => (Except.ok t, 1)
    | Except.error e => (Except.error (EstablishError.authPanic e), 1)

/-- `ReleaseSummary::get_release_summary` of `src/platform.rs`
(lines 29-42): a GET of the release resource whose envelope must hold a
single item (`anyhow!("Unexpected Result!")` otherwise). -/
def ReleaseSummary.get_release_summary
    (resp : Except GetError (Response ReleaseSummary)) : Except Unit ReleaseSummary :=
  match resp with
  | Except.ok r =>
    match r.response with
    | ResponseType.Item data => Except.ok data
    | ResponseType.Array _ => Except.error ()
  | Except.error _ => Except.error ()

/-- Failures of `DNAC::verify_version` (lines 173-183): the release
summary fetch failing, or the `anyhow!("Version {} not supported")` arm
when no allow-listed version string occurs in the installed version. -/
inductive VersionError where
  | transport
  | notSupported (installed : String)
deriving DecidableEq

/-- `DNAC::verify_version` (lines 173-183): fetch the release summary once
and succeed with the first allow-listed version string that occurs as a
substring of the installed-version string. -/
def DNAC.verify_version (summary : Except Unit ReleaseSummary) : Except VersionError String :=
  match summary with
  | Except.error _ => Except.error VersionError.transport
  | Except.ok rs =>
    match SUPPORTED_VERSIONS.find? (fun v => strContains rs.installed_version v) with
    | some v => Except.ok v
    | none => Except.error (VersionError.notSupported rs.installed_version)

/-- Failures of `DNAC::new` (lines 112-170): a panic inside the
token-establishment block, or the `?`-propagated version-gate failure. -/
inductive NewError where
  | establish (e : EstablishError)
  | version (e : VersionError)
deriving DecidableEq

/-- `DNAC::new` (lines 112-170), together with the number of `get_token`
calls made: normalize the controller URL, establish the token (the only
fallible token work), store it in the session, then run the version gate;
only when the gate passes is the session returned. -/
def DNAC.new (token_file dnacUrl user password : String)
    (loadResult : Except Unit Token) (now : Nat)
    (authResult : Except Unit Token) (saveResult : Except Unit Unit)
    (summary : Except Unit ReleaseSummary) : Except NewError DNAC × Nat :=
  let url := stripSuffixSlash dnacUrl
  match DNAC.establishToken loadResult now authResult saveResult with
  | (Except.error e, n) => (Except.error (NewError.establish e), n)
  | (Except.ok tok, n) =>
    match DNAC.verify_version summary with
    | Except.error e => (Except.error (NewError.version e), n)
    | Except.ok _ =>
      (Except.ok { token := tok, token_file := token_file, dnac := url,
                   user := user, password := password }, n)

/-- `DeviceFamily` of `src/devices.rs` (lines 10-22). -/
inductive DeviceFamily where
  | SwitchesAndHubs
  | UnifiedAp
  | Routers
  | WirelessController
  | WirelessSensor
deriving DecidableEq

/-- `DeviceStatus` of `src/devices.rs` (lines 48-68). -/
inductive DeviceStatus where
  | Unassociated
  | Synchronizing
  | SyncDisabled
  | CouldNotSynchronize
  | NotManageable
  | Managed
  | PartialCollectionFailure
  | Incomplete
  | Unreachable
  | WrongCredential
  | Reachable
  | InProgress
deriving DecidableEq

/-- `Device` of `src/devices.rs` (lines 36-46); the `Uuid` identifier is
embedded as a `Nat` (a 128-bit value in the source, only compared for
equality). -/
structure Device where
  id : Nat
  collection_status : DeviceStatus
  management_ip_address : String
  hostname : Option String
  description : Option String
  family : Option DeviceFamily
deriving DecidableEq

/-- `DeviceError` of `src/devices.rs` (lines 75-81). -/
inductive DeviceError where
  | GeneralError
  | InvalidDevice
deriving DecidableEq

/-- `Device::get_device_list` of `src/devices.rs` (lines 84-118), observed
at the outcome of the underlying `DNAC::get`: an `Array` payload is
returned as is, an `Item` payload as a one-element list, and any error
becomes `DeviceError::GeneralError`. -/
def Device.get_device_list (device_data : Except GetError (Response Device)) :
    Except DeviceError (List Device) :=
  match device_data with
  | Except.ok r =>
    match r.response with
    | ResponseType.Array data => Except.ok data
    | ResponseType.Item data => Except.ok [data]
  | Except.error _ => Except.error DeviceError.GeneralError

/-- The loop of `Device::get_all_devices` (`src/devices.rs` lines 128-154),
with `listFn` the page fetch (`get_device_list` applied to the session and
filter) and an added fuel bound and fetch counter; `none` means the fuel
ran out (the source loops without bound).  A page of two or more items is
appended whole and the offset advanced by the limit; a page of zero or one
items ends the loop, a fresh single item being appended first. -/
def getAllDevicesAux (listFn : Pagination → List Device) :
    Nat → Nat → List Device → Nat → Option (List Device × Nat)
  | 0, _, _, _ => none
  | fuel + 1, offset, devices, fetches =>
    let pagination := ((Pagination.builder.with_offset offset).with_limit 500).build
    match listFn pagination with
    | [] => some (devices, fetches + 1)
    | [d] =>
      if ((devices.find? (fun s => s.id == d.id)).isNone : Bool) then
        some (devices ++ [d], fetches + 1)
      else
        some (devices, fetches + 1)
    | a :: b :: rest =>
      getAllDevicesAux listFn fuel (offset + 500) (devices ++ (a :: b :: rest)) (fetches + 1)

/-- `Device::get_all_devices` (lines 120-157): run the pagination loop
from `offset = 1` with an empty accumulator. -/
def Device.get_all_devices (listFn : Pagination → List Device) (fuel : Nat) :
    Option (List Device × Nat) :=
  getAllDevicesAux listFn fuel 1 [] 0

/-- `Location` of `src/sites.rs` (lines 24-34). -/
structure Location where
  country : Option String
  address : Option String
  latitude : Option String
  address_inherited_from : String
  location_type : String
  longitude : Option String

/-- `Site` of `src/sites.rs` (lines 13-22); the `Uuid` identifier is
embedded as a `Nat`, and the raw `serde_json::Value` entries of
`additional_info` as `Json`. -/
structure Site where
  id : Nat
  group_name_hierarchy : String
  group_hierarchy : String
  name : String
  location : Option Location
  additional_info : Option (List Json)

/-- The loop of `Sites::get_all_sites` (`src/sites.rs` lines 134-160),
identical in shape to the device loop: `listFn` is the page fetch
(`get_site` applied to the session and filter), with an added fuel bound
and fetch counter. -/
def getAllSitesAux (listFn : Pagination → List Site) :
    Nat → Nat → List Site → Nat → Option (List Site × Nat)
  | 0, _, _, _ => none
  | fuel + 1, offset, sites, fetches =>
    let pagination := ((Pagination.builder.with_offset offset).with_limit 500).build
    match listFn pagination with
    | [] => some (sites, fetches + 1)
    | [s] =>
      if ((sites.find? (fun x => x.id == s.id)).isNone : Bool) then
        some (sites ++ [s], fetches + 1)
      else
        some (sites, fetches + 1)
    | a :: b :: rest =>
      getAllSitesAux listFn fuel (offset + 500) (sites ++ (a :: b :: rest)) (fetches + 1)

/-- `Sites::get_all_sites` (lines 127-163): run the pagination loop from
`offset = 1` with an empty accumulator. -/
def Sites.get_all_sites (listFn : Pagination → List Site) (fuel : Nat) :
    Option (List Site × Nat) :=
  getAllSitesAux listFn fuel 1 [] 0

/-- A monotonic, stable paginated backing collection of devices, as the
termination claim assumes of the controller: the page at a given
pagination holds `min limit remaining` items starting at the 1-based
offset. -/
def pageFn (coll : List Device) (p : Pagination) : List Device :=
  (coll.drop (p.offset - 1)).take p.limit

/-- The number of page fetches the loop performs on a backing collection
of `n` items with page size 500: one fetch when `n ≤ 1` (the first page is
already the terminal short page), and `(n - 2) / 500 + 2` otherwise (the
bulk pages plus the terminal short page). -/
def pagesFor (n : Nat) : Nat :=
  if n ≤ 1 then 1 else (n - 2) / 500 + 2

/-- C7: `Token::valid` returns true exactly when a parsed expiry exists
and is strictly greater than the current timestamp; a token expiring one
second in the future is valid, a token whose expiry equals or precedes
`now` (any `now - k`) is invalid, and a token with no parsed expiry is
invalid. -/
theorem token_valid_characterization :
    ∀ (t : Token) (now : Nat),
      (t.valid now = true ↔ ∃ e, t.exp = some e ∧ now < e) ∧
      (∀ s : JwtText, (Token.mk s (some (now + 1))).valid now = true) ∧
      (∀ (s : JwtText) (k : Nat), (Token.mk s (some (now - k))).valid now = false) ∧
      (∀ s : JwtText, (Token.mk s none).valid now = false) := by
  intro t now
  refine ⟨?_, ?_, ?_, ?_⟩
  · cases h : t.exp with
    | none => simp [Token.valid, h]
    | some e => simp [Token.valid, h]
  · intro s
    simp [Token.valid]
  · intro s k
    simp [Token.valid]
    try omega
  · intro s
    simp [Token.valid]

/-- C10: `Token::valid_for` is total and never underflows: together with
`now` it recovers the expiry exactly when the expiry is in the future
(`valid_for + now = max exp now`), it equals `exp - now` precisely when the
token is valid and `0` otherwise, and a positive remaining lifetime
implies validity. -/
theorem token_valid_for_no_underflow :
    ∀ (t : Token) (now : Nat),
      t.valid_for now + now = max (t.exp.getD now) now ∧
      t.valid_for now = (if t.valid now then t.exp.getD 0 - now else 0) ∧
      (t.valid_for now = 0 ∨ t.valid now = true) := by
  intro t now
  cases h : t.exp with
  | none => simp [Token.valid_for, Token.valid, h]
  | some e =>
    by_cases he : now < e
    · simp [Token.valid_for, Token.valid, h, he]
      try omega
    · simp [Token.valid_for, Token.valid, h, he]
      try omega

/-- C9 counterexample: the builder performs no validation — an offset of 0
(violating `offset >= 1`) and a limit of 0 (violating `limit > 0`) pass
through unchanged — and `set_offset` changes a constructed value, so
`Pagination` is not immutable. -/
theorem pagination_builder_unvalidated :
    ((Pagination.builder.with_offset 0).build).offset = 0 ∧
    ((Pagination.builder.with_limit 0).build).limit = 0 ∧
    Pagination.set_offset { offset := 1, limit := 500 } 9 ≠
      ({ offset := 1, limit := 500 } : Pagination) := by
  decide

/-- C9 amended: the builder's defaults are `offset = 1, limit = 500` (so
the default-built value satisfies the positivity bounds), but `with_offset`
and `with_limit` store arbitrary values unvalidated, and `set_offset` /
`set_limit` mutate a `Pagination` after construction. -/
theorem pagination_builder_defaults :
    ∀ (o l : Nat) (p : Pagination),
      Pagination.builder.build = { offset := 1, limit := 500 } ∧
      Pagination.default = { offset := 1, limit := 500 } ∧
      ((Pagination.builder.with_offset o).with_limit l).build = { offset := o, limit := l } ∧
      (Pagination.set_offset p o).offset = o ∧
      (Pagination.set_offset p o).limit = p.limit ∧
      (Pagination.set_limit p l).limit = l ∧
      (Pagination.set_limit p l).offset = p.offset := by
  intro o l p
  exact ⟨rfl, rfl, rfl, rfl, rfl, rfl, rfl⟩

/-- C8: the version gate succeeds exactly when the installed-version
string contains one of the allow-listed strings "2.3.7.5", "2.3.7.6" as a
substring (no semantic-version comparison), and a failed gate makes
`DNAC::new` fail, so no session is ever returned. -/
theorem verify_version_substring_gate :
    ∀ (rs : ReleaseSummary) (summary : Except Unit ReleaseSummary)
      (token_file dnacUrl user password : String)
      (loadResult : Except Unit Token) (now : Nat)
      (authResult : Except Unit Token) (saveResult : Except Unit Unit),
      ((DNAC.verify_version (Except.ok rs)).isOk = true ↔
        (("2.3.7.5").data <:+: rs.installed_version.data ∨
         ("2.3.7.6").data <:+: rs.installed_version.data)) ∧
      ((DNAC.verify_version summary).isOk = false →
        ∀ d, (DNAC.new token_file dnacUrl user password loadResult now authResult
            saveResult summary).1 ≠ Except.ok d) := by
  intro rs summary token_file dnacUrl user password loadResult now authResult saveResult
  refine ⟨?_, ?_⟩
  · by_cases h1 : ("2.3.7.5").data <:+: rs.installed_version.data <;>
      by_cases h2 : ("2.3.7.6").data <:+: rs.installed_version.data <;>
        simp [DNAC.verify_version, SUPPORTED_VERSIONS, strContains, List.find?, h1, h2,
          Except.isOk, Except.toBool]
  · intro hfail d hok
    unfold DNAC.new at hok
    rcases hE : DNAC.establishToken loadResult now authResult saveResult with ⟨r, n⟩
    rw [hE] at hok
    cases r with
    | error e => simp at hok
    | ok tok =>
      cases hv : DNAC.verify_version summary with
      | error e => rw [hv] at hok; simp at hok
      | ok v => rw [hv] at hfail; simp [Except.isOk, Except.toBool] at hfail

/-- C5 counterexample: a response with a non-success status other than 500
(here 404) whose body nevertheless decodes as the expected type is
returned as a value, not as a generic transport failure — the status is
never consulted except for the 500 check. -/
theorem get_decodable_error_status_returns_value :
    DNAC.get Json.asBool (Except.ok { status := 404, body := Json.bool true }) =
      Except.ok true ∧
    DNAC.get Json.asBool (Except.ok { status := 404, body := Json.bool true }) ≠
      Except.error GetError.send ∧
    DNAC.get Json.asBool (Except.ok { status := 404, body := Json.bool true }) ≠
      Except.error GetError.decode := by
  refine ⟨rfl, ?_, ?_⟩ <;> intro h <;> simp [DNAC.get, Json.asBool] at h

/-- C5 amended: on HTTP 500 both `get` and `post` decode the body as
`ApiError` and surface it as the typed failure (a generic decode failure
when that body does not decode); on every other status — success or not —
`get` decodes the body as the expected type and returns the value exactly
when that decode succeeds, a generic failure otherwise (and `post` without
polling ignores the body and succeeds); the typed `ApiError` failure
arises only from status 500. -/
theorem transport_error_branching :
    ∀ (T : Type) (dec : Json → Option T) (r : HttpResponse) (poll : Bool)
      (taskResp : String → Nat → Except Unit (ResponseType Task)) (fuel : Nat),
      (r.status = 500 →
        (∀ e, decodeApiError r.body = some e →
           DNAC.get dec (Except.ok r) = Except.error (GetError.api e) ∧
           DNAC.post (Except.ok r) poll taskResp fuel =
             some (Except.error (PostError.api e))) ∧
        (decodeApiError r.body = none →
           DNAC.get dec (Except.ok r) = Except.error GetError.decode ∧
           DNAC.post (Except.ok r) poll taskResp fuel =
             some (Except.error PostError.decode))) ∧
      (r.status ≠ 500 →
        (∀ v, dec r.body = some v → DNAC.get dec (Except.ok r) = Except.ok v) ∧
        (dec r.body = none → DNAC.get dec (Except.ok r) = Except.error GetError.decode) ∧
        (poll = false →
           DNAC.post (Except.ok r) poll taskResp fuel = some (Except.ok ()))) ∧
      (∀ e, DNAC.get dec (Except.ok r) = Except.error (GetError.api e) →
        r.status = 500) := by
  intro T dec r poll taskResp fuel
  refine ⟨?_, ?_, ?_⟩
  · intro h500
    constructor
    · intro e he
      constructor <;> simp [DNAC.get, DNAC.post, h500, he]
    · intro hn
      constructor <;> simp [DNAC.get, DNAC.post, h500, hn]
  · intro hne
    refine ⟨?_, ?_, ?_⟩
    · intro v hv
      simp [DNAC.get, hne, hv]
    · intro hn
      simp [DNAC.get, hne, hn]
    · intro hp
      simp [DNAC.post, hne, hp]
  · intro e he
    by_cases h : r.status = 500
    · exact h
    · exfalso
      simp [DNAC.get, h] at he
      cases hd : dec r.body <;> rw [hd] at he <;> simp at he

/-- Element-wise decoding of an encoded list recovers the list, for a
decoder that inverts the encoder. -/
theorem decodeElems_map_enc {T : Type} (enc : T → Json) (dec : Json → Option T)
    (h : ∀ t, dec (enc t) = some t) : ∀ xs : List T, decodeElems dec (xs.map enc) = some xs := by
  intro xs
  induction xs with
  | nil => rfl
  | cons a l ih => simp [decodeElems, h a, ih]

/-- C6: for a decoder inverting the encoder on items whose encoding is not
array-shaped (every DTO of this client encodes as a JSON object), decoding
an encoded single-item envelope and normalizing yields exactly the
one-element sequence, decoding an encoded sequence envelope (any length,
including zero) yields the sequence unchanged, and whenever the
array-shaped interpretation of a payload succeeds it is the one taken, so
the array attempt precedes the single-object attempt. -/
theorem envelope_single_and_array_roundtrip :
    ∀ (T : Type) (enc : T → Json) (dec : Json → Option T),
      (∀ t, dec (enc t) = some t) →
      (∀ t, (enc t).isArr = false) →
      ∀ (x : T) (xs : List T),
        (decodeResponse dec (encodeResponse enc { response := ResponseType.Item x })).map
            (fun r => r.response.toList) = some [x] ∧
        (decodeResponse dec (encodeResponse enc { response := ResponseType.Array xs })).map
            (fun r => r.response.toList) = some xs ∧
        (∀ (j : Json) (ts : List T), Json.decodeList dec j = some ts →
           decodeResponseType dec j = some (ResponseType.Array ts)) := by
  intro T enc dec hdec hnarr x xs
  refine ⟨?_, ?_, ?_⟩
  · have hne : Json.decodeList dec (enc x) = none := by
      have hx := hnarr x
      cases hj : enc x with
      | arr items => rw [hj] at hx; simp [Json.isArr] at hx
      | null => simp [Json.decodeList]
      | bool b => simp [Json.decodeList]
      | num n => simp [Json.decodeList]
      | str s => simp [Json.decodeList]
      | obj fields => simp [Json.decodeList]
    simp [decodeResponse, encodeResponse, encodeResponseType, Json.getField, List.find?,
      decodeResponseType, hne, hdec x, ResponseType.toList]
  · have hl : Json.decodeList dec (Json.arr (xs.map enc)) = some xs := by
      simp [Json.decodeList, decodeElems_map_enc enc dec hdec xs]
    simp [decodeResponse, encodeResponse, encodeResponseType, Json.getField, List.find?,
      decodeResponseType, hl, ResponseType.toList]
  · intro j ts hts
    simp [decodeResponseType, hts]

/-- Witness for C6 at a concrete encoder/decoder pair (booleans): the
hypotheses hold and the round-trip produces `[true]` and `[true, false]`. -/
theorem envelope_roundtrip_witness :
    (decodeResponse Json.asBool (encodeResponse Json.bool
        { response := ResponseType.Item true })).map (fun r => r.response.toList) =
      some [true] ∧
    (decodeResponse Json.asBool (encodeResponse Json.bool
        { response := ResponseType.Array [true, false] })).map
        (fun r => r.response.toList) = some [true, false] := by
  have h := envelope_single_and_array_roundtrip Bool Json.bool Json.asBool
    (fun t => by cases t <;> rfl) (fun t => rfl) true [true, false]
  exact ⟨h.1, h.2.1⟩

/-- A concrete task that is terminal (`end_time` set) and not errored. -/
def taskDone : Task :=
  { id := ("t1"), additional_status_url := none, data := none, end_time := some 5,
    error_code := none, error_key := none, failure_reason := none,
    instance_tenant_id := ("tenant"), is_error := false, last_update := none,
    operation_id_list := none, parent_id := none, progress := ("done"),
    root_id := none, service_type := ("svc"), start_time := 1, username := none,
    version := 1 }

/-- C1 counterexample: a task tree reported as the untagged single-object
variant (`ResponseType::Item`), even one whose only task has an end time
and is not errored, makes `poll_task` return the
`anyhow!("Unexpected response")` failure instead of the success the claim
promises — only array-shaped trees are evaluated by the terminal rule. -/
theorem poll_task_single_item_tree_rejected :
    taskDone.end_time.isSome = true ∧ taskDone.is_error = false ∧
    DNAC.poll_task (fun _ _ => Except.ok (ResponseType.Item taskDone))
        { task_id := ("t"), url := ("/u") } 1 =
      some (Except.error PollError.unexpectedResponse) ∧
    DNAC.poll_task (fun _ _ => Except.ok (ResponseType.Item taskDone))
        { task_id := ("t"), url := ("/u") } 1 ≠ some (Except.ok ()) := by
  refine ⟨rfl, rfl, rfl, ?_⟩
  intro h
  simp [DNAC.poll_task, pollTaskLoop] at h

/-- C1 amended: for task trees reported as the array variant (of any
length, one task or many), the poller returns success when every task has
an end time and none is errored, returns the task failure when every task
has an end time and at least one is errored, and re-polls (consuming the
next status response) when any task lacks an end time; a tree reported as
the untagged single-object variant is rejected with an
"Unexpected response" failure regardless of its state. -/
theorem poll_task_array_tree_transitions :
    ∀ (resp : Nat → Except Unit (ResponseType Task)) (fuel i : Nat)
      (ts : List Task) (t0 : Task),
      ((∀ t ∈ ts, t.end_time.isSome = true) → (∀ t ∈ ts, t.is_error = false) →
         pollTaskLoop resp (fuel + 1) i (ResponseType.Array ts) = some (Except.ok ())) ∧
      ((∀ t ∈ ts, t.end_time.isSome = true) → (∃ t ∈ ts, t.is_error = true) →
         pollTaskLoop resp (fuel + 1) i (ResponseType.Array ts) =
           some (Except.error PollError.taskFailed)) ∧
      ((∃ t ∈ ts, t.end_time = none) →
         pollTaskLoop resp (fuel + 1) i (ResponseType.Array ts) =
           (match resp i with
            | Except.error _ => some (Except.error PollError.transport)
            | Except.ok t' => pollTaskLoop resp fuel (i + 1) t')) ∧
      pollTaskLoop resp (fuel + 1) i (ResponseType.Item t0) =
        some (Except.error PollError.unexpectedResponse) := by
  intro resp fuel i ts t0
  refine ⟨?_, ?_, ?_, rfl⟩
  · intro hend herr
    have hall : ts.all (fun t => t.end_time.isSome) = true := List.all_eq_true.mpr hend
    have hany : ts.any (fun t => t.is_error) = false := by
      rw [Bool.eq_false_iff]
      intro hc
      obtain ⟨t, ht, hterr⟩ := List.any_eq_true.mp hc
      rw [herr t ht] at hterr
      exact Bool.false_ne_true hterr
    simp [pollTaskLoop, hall, hany]
  · intro hend herr
    have hall : ts.all (fun t => t.end_time.isSome) = true := List.all_eq_true.mpr hend
    have hany : ts.any (fun t => t.is_error) = true := List.any_eq_true.mpr herr
    simp [pollTaskLoop, hall, hany]
  · intro hmiss
    have hall : ts.all (fun t => t.end_time.isSome) = false := by
      rw [Bool.eq_false_iff]
      intro hc
      obtain ⟨t, ht, hnone⟩ := hmiss
      have := List.all_eq_true.mp hc t ht
      rw [hnone] at this
      exact Bool.false_ne_true this
    simp [pollTaskLoop, hall]

/-- The cached token is unusable or unloadable in the claim's sense: the
token file fails to load, the loaded token's JWT fails to parse (the
spec's step 2 treats a token whose expiry claim cannot be parsed as
absent), or it parses but fails the validity policy of `DNAC::new` (valid
with more than 10 minutes of remaining lifetime). -/
def cachedTokenUnusable (loadResult : Except Unit Token) (now : Nat) : Prop :=
  match loadResult with
  | Except.error _ => True
  | Except.ok tok =>
    match tok.parse with
    | none => True
    | some tok' => ¬(tok'.valid now ∧ 60 * 10 < tok'.valid_for now)

/-- The cases in which `DNAC::new` actually reaches the `get_token`
fallback: the load fails, or the loaded token's JWT parses and the parsed
token fails the validity policy.  A loaded token whose JWT fails to parse
is `cachedTokenUnusable` but is NOT here: the code panics inside
`Token::parse` (dnac.rs line 142) before the fallback can run. -/
def fallsBackToAuth (loadResult : Except Unit Token) (now : Nat) : Prop :=
  match loadResult with
  | Except.error _ => True
  | Except.ok tok =>
    match tok.parse with
    | none => False
    | some tok' => ¬(tok'.valid now ∧ 60 * 10 < tok'.valid_for now)

/-- A token as a well-formed token file would load it, whose `Token`
string is not a decodable JWT: `Token::parse` panics on it. -/
def badJwtToken : Token :=
  { token := { raw := ("x"), claims := none }, exp := some 5 }

/-- A fresh token as the auth endpoint returns it: a decodable JWT with an
expiry claim, its `exp` field not yet populated. -/
def freshAuthToken : Token :=
  { token := { raw := ("header.payload.sig"), claims := some (some 9999) }, exp := none }

/-- C4 counterexample: a cached token that loads but whose JWT fails to
parse is an unusable cached token, and the fallback authentication call
would succeed, yet establishment does not return the fresh token: it
aborts with the `Token::parse` panic before `get_token` is ever called
(zero authentication calls), refuting "when the cached token is unusable
but the authentication call succeeds, establishment returns the fresh
token". -/
theorem establish_parse_panic_no_fallback :
    cachedTokenUnusable (Except.ok badJwtToken) 0 ∧
    DNAC.get_token (Except.ok freshAuthToken) (Except.ok ()) =
      Except.ok { token := freshAuthToken.token, exp := some 9999 } ∧
    DNAC.establishToken (Except.ok badJwtToken) 0 (Except.ok freshAuthToken)
        (Except.ok ()) = (Except.error EstablishError.loadedParsePanic, 0) ∧
    (DNAC.establishToken (Except.ok badJwtToken) 0 (Except.ok freshAuthToken)
        (Except.ok ())).1 ≠
      Except.ok { token := freshAuthToken.token, exp := some 9999 } := by
  refine ⟨trivial, rfl, rfl, ?_⟩
  intro h
  simp [DNAC.establishToken, badJwtToken, Token.parse] at h

/-- C4 amended: the establishment block of `DNAC::new` fails on the
authentication path (the `unwrap` on `get_token`, the source's typed fatal
`AuthError`) only when the code reaches the fallback — the cached token is
unloadable, or loads and parses but fails the validity policy — AND the
`get_token` call fails; in those same fallback cases a successful
`get_token` call makes establishment return exactly the fresh token (and
a returned session carries it); `get_token` is called at most once, and
its failure is immediately fatal after that single call — no retry.  A
loaded token whose JWT fails to parse, although an unusable cached token,
never falls back: establishment aborts with the `Token::parse` panic
before any authentication call. -/
theorem establish_token_auth_error_only_on_double_failure :
    ∀ (loadResult : Except Unit Token) (now : Nat)
      (authResult : Except Unit Token) (saveResult : Except Unit Unit)
      (token_file dnacUrl user password : String) (summary : Except Unit ReleaseSummary),
      (∀ e, (DNAC.establishToken loadResult now authResult saveResult).1 =
          Except.error (EstablishError.authPanic e) →
        fallsBackToAuth loadResult now ∧
        DNAC.get_token authResult saveResult = Except.error e) ∧
      (∀ t, fallsBackToAuth loadResult now →
          DNAC.get_token authResult saveResult = Except.ok t →
        (DNAC.establishToken loadResult now authResult saveResult).1 = Except.ok t ∧
        (∀ d, (DNAC.new token_file dnacUrl user password loadResult now authResult
            saveResult summary).1 = Except.ok d → d.token = t)) ∧
      (DNAC.establishToken loadResult now authResult saveResult).2 ≤ 1 ∧
      (∀ e, fallsBackToAuth loadResult now →
          DNAC.get_token authResult saveResult = Except.error e →
        DNAC.establishToken loadResult now authResult saveResult =
          (Except.error (EstablishError.authPanic e), 1)) ∧
      (∀ tok, loadResult = Except.ok tok → tok.parse = none →
        DNAC.establishToken loadResult now authResult saveResult =
          (Except.error EstablishError.loadedParsePanic, 0)) := by
  intro loadResult now authResult saveResult token_file dnacUrl user password summary
  refine ⟨?_, ?_, ?_, ?_, ?_⟩
  · intro e he
    cases loadResult with
    | error u =>
      cases hg : DNAC.get_token authResult saveResult with
      | ok t => simp [DNAC.establishToken, hg] at he
      | error e' =>
        simp [DNAC.establishToken, hg] at he
        exact ⟨trivial, by simp [hg, he]⟩
    | ok tok =>
      cases hp : tok.parse with
      | none => simp [DNAC.establishToken, hp] at he
      | some tok' =>
        by_cases hv : tok'.valid now ∧ 60 * 10 < tok'.valid_for now
        · simp [DNAC.establishToken, hp, hv] at he
        · cases hg : DNAC.get_token authResult saveResult with
          | ok t => simp [DNAC.establishToken, hp, hv, hg] at he
          | error e' =>
            simp [DNAC.establishToken, hp, hv, hg] at he
            exact ⟨by simp [fallsBackToAuth, hp, hv], by simp [hg, he]⟩
  · intro t hu hg
    have hest : (DNAC.establishToken loadResult now authResult saveResult).1 =
        Except.ok t := by
      cases loadResult with
      | error u => simp [DNAC.establishToken, hg]
      | ok tok =>
        cases hp : tok.parse with
        | none => simp [fallsBackToAuth, hp] at hu
        | some tok' =>
          have hv : ¬(tok'.valid now ∧ 60 * 10 < tok'.valid_for now) := by
            simpa [fallsBackToAuth, hp] using hu
          simp [DNAC.establishToken, hp, hv, hg]
    refine ⟨hest, ?_⟩
    intro d hd
    unfold DNAC.new at hd
    rcases hE : DNAC.establishToken loadResult now authResult saveResult with ⟨r, n⟩
    rw [hE] at hd
    rw [hE] at hest
    cases r with
    | error e => simp at hest
    | ok tok =>
      cases hv : DNAC.verify_version summary with
      | error e => rw [hv] at hd; simp at hd
      | ok v =>
        rw [hv] at hd
        simp at hd hest
        subst hd
        exact hest
  · cases loadResult with
    | error u =>
      cases hg : DNAC.get_token authResult saveResult <;> simp [DNAC.establishToken, hg]
    | ok tok =>
      cases hp : tok.parse with
      | none => simp [DNAC.establishToken, hp]
      | some tok' =>
        by_cases hv : tok'.valid now ∧ 60 * 10 < tok'.valid_for now
        · simp [DNAC.establishToken, hp, hv]
        · cases hg : DNAC.get_token authResult saveResult <;>
            simp [DNAC.establishToken, hp, hv, hg]
  · intro e hu hg
    cases loadResult with
    | error u => simp [DNAC.establishToken, hg]
    | ok tok =>
      cases hp : tok.parse with
      | none => simp [fallsBackToAuth, hp] at hu
      | some tok' =>
        have hv : ¬(tok'.valid now ∧ 60 * 10 < tok'.valid_for now) := by
          simpa [fallsBackToAuth, hp] using hu
        simp [DNAC.establishToken, hp, hv, hg]
  · intro tok hl hp
    subst hl
    simp [DNAC.establishToken, hp]

/-- One unfolding of the device pagination loop. -/
theorem getAllDevicesAux_step (listFn : Pagination → List Device)
    (fuel offset fetches : Nat) (devices : List Device) :
    getAllDevicesAux listFn (fuel + 1) offset devices fetches =
      (match listFn (((Pagination.builder.with_offset offset).with_limit 500).build) with
       | [] => some (devices, fetches + 1)
       | [d] =>
         if ((devices.find? (fun s => s.id == d.id)).isNone : Bool) then
           some (devices ++ [d], fetches + 1)
         else
           some (devices, fetches + 1)
       | a :: b :: rest =>
         getAllDevicesAux listFn fuel (offset + 500) (devices ++ (a :: b :: rest))
           (fetches + 1)) := rfl

/-- One unfolding of the site pagination loop. -/
theorem getAllSitesAux_step (listFn : Pagination → List Site)
    (fuel offset fetches : Nat) (sites : List Site) :
    getAllSitesAux listFn (fuel + 1) offset sites fetches =
      (match listFn (((Pagination.builder.with_offset offset).with_limit 500).build) with
       | [] => some (sites, fetches + 1)
       | [s] =>
         if ((sites.find? (fun x => x.id == s.id)).isNone : Bool) then
           some (sites ++ [s], fetches + 1)
         else
           some (sites, fetches + 1)
       | a :: b :: rest =>
         getAllSitesAux listFn fuel (offset + 500) (sites ++ (a :: b :: rest))
           (fetches + 1)) := rfl

/-- C2: in any state of a `get_all_devices` / `get_all_sites` run, when the
page fetched at the current offset holds exactly one item, the loop
terminates on that page; the item is appended exactly once when its
identifier is not yet in the accumulated result (the result then counts it
once), and not appended at all when its identifier already appeared. -/
theorem get_all_tail_dedup :
    ∀ (listFnD : Pagination → List Device) (listFnS : Pagination → List Site)
      (fuel offset cnt : Nat) (accD : List Device) (accS : List Site)
      (d : Device) (s : Site),
      listFnD (((Pagination.builder.with_offset offset).with_limit 500).build) = [d] →
      listFnS (((Pagination.builder.with_offset offset).with_limit 500).build) = [s] →
      ((d.id ∈ accD.map (fun x => x.id) →
          getAllDevicesAux listFnD (fuel + 1) offset accD cnt = some (accD, cnt + 1)) ∧
       (d.id ∉ accD.map (fun x => x.id) →
          getAllDevicesAux listFnD (fuel + 1) offset accD cnt =
            some (accD ++ [d], cnt + 1) ∧
          (accD ++ [d]).countP (fun x => x.id == d.id) = 1) ∧
       (s.id ∈ accS.map (fun x => x.id) →
          getAllSitesAux listFnS (fuel + 1) offset accS cnt = some (accS, cnt + 1)) ∧
       (s.id ∉ accS.map (fun x => x.id) →
          getAllSitesAux listFnS (fuel + 1) offset accS cnt =
            some (accS ++ [s], cnt + 1) ∧
          (accS ++ [s]).countP (fun x => x.id == s.id) = 1)) := by
  intro listFnD listFnS fuel offset cnt accD accS d s hpd hps
  refine ⟨?_, ?_, ?_, ?_⟩
  · intro hmem
    obtain ⟨x, hx, hxid⟩ := List.mem_map.mp hmem
    cases hf : accD.find? (fun y => y.id == d.id) with
    | none => exact absurd (beq_iff_eq.mpr hxid) (List.find?_eq_none.mp hf x hx)
    | some y => simp [getAllDevicesAux_step, hpd, hf]
  · intro hnot
    have hf : accD.find? (fun y => y.id == d.id) = none :=
      List.find?_eq_none.mpr
        (fun x hx h2 => hnot (List.mem_map.mpr ⟨x, hx, beq_iff_eq.mp h2⟩))
    have hzero : accD.countP (fun y => y.id == d.id) = 0 :=
      List.countP_eq_zero.mpr
        (fun x hx h2 => hnot (List.mem_map.mpr ⟨x, hx, beq_iff_eq.mp h2⟩))
    constructor
    · simp [getAllDevicesAux_step, hpd, hf]
    · simp [List.countP_append, List.countP_cons, hzero]
  · intro hmem
    obtain ⟨x, hx, hxid⟩ := List.mem_map.mp hmem
    cases hf : accS.find? (fun y => y.id == s.id) with
    | none => exact absurd (beq_iff_eq.mpr hxid) (List.find?_eq_none.mp hf x hx)
    | some y => simp [getAllSitesAux_step, hps, hf]
  · intro hnot
    have hf : accS.find? (fun y => y.id == s.id) = none :=
      List.find?_eq_none.mpr
        (fun x hx h2 => hnot (List.mem_map.mpr ⟨x, hx, beq_iff_eq.mp h2⟩))
    have hzero : accS.countP (fun y => y.id == s.id) = 0 :=
      List.countP_eq_zero.mpr
        (fun x hx h2 => hnot (List.mem_map.mpr ⟨x, hx, beq_iff_eq.mp h2⟩))
    constructor
    · simp [getAllSitesAux_step, hps, hf]
    · simp [List.countP_append, List.countP_cons, hzero]

/-- A concrete device for instantiating the pagination claims. -/
def devA : Device :=
  { id := 1, collection_status := DeviceStatus.Managed,
    management_ip_address := ("10.0.0.1"), hostname := none, description := none,
    family := none }

/-- A second concrete device, with a distinct identifier. -/
def devB : Device :=
  { id := 2, collection_status := DeviceStatus.Reachable,
    management_ip_address := ("10.0.0.2"), hostname := none, description := none,
    family := none }

/-- A concrete site for instantiating the pagination claims. -/
def siteA : Site :=
  { id := 1, group_name_hierarchy := ("Global/A"), group_hierarchy := ("1/2"),
    name := ("A"), location := none, additional_info := none }

/-- Witness for C2: a duplicate single-item tail page leaves the device
accumulator unchanged, and a fresh single-item tail page is appended
exactly once to the site accumulator. -/
theorem get_all_tail_dedup_witness :
    getAllDevicesAux (fun _ => [devA]) 1 1 [devA] 0 = some ([devA], 1) ∧
    getAllSitesAux (fun _ => [siteA]) 1 1 [] 0 = some ([siteA], 1) ∧
    (([] : List Site) ++ [siteA]).countP (fun x => x.id == siteA.id) = 1 := by
  have h := get_all_tail_dedup (fun _ => [devA]) (fun _ => [siteA]) 0 1 0 [devA] []
    devA siteA rfl rfl
  exact ⟨h.1 (by simp), (h.2.2.2 (by simp)).1, (h.2.2.2 (by simp)).2⟩

/-- The fetch count is within the spec's bound: `pagesFor n` never exceeds
`⌈n / 500⌉ + 1`. -/
theorem pagesFor_le (n : Nat) : pagesFor n ≤ (n + 499) / 500 + 1 := by
  unfold pagesFor
  split
  · exact Nat.le_add_left 1 _
  · rename_i h
    have h1 : n + 499 = (n - 1) + 500 := by omega
    rw [h1, Nat.add_div_right _ (by norm_num)]
    have h2 : (n - 2) / 500 ≤ (n - 1) / 500 := Nat.div_le_div_right (by omega)
    omega

/-- Recurrence of the fetch count: on a collection of `n ≥ 2` remaining
items, one bulk fetch precedes the fetches on the remaining `n - 500`. -/
theorem pagesFor_step (n : Nat) (h : 2 ≤ n) : pagesFor n = 1 + pagesFor (n - 500) := by
  unfold pagesFor
  by_cases h5 : n - 500 ≤ 1
  · rw [if_neg (by omega), if_pos h5]
    have h0 : (n - 2) / 500 = 0 := Nat.div_eq_of_lt (by omega)
    omega
  · rw [if_neg (by omega), if_neg h5]
    have h2 : n - 2 = (n - 502) + 500 := by omega
    rw [h2, Nat.add_div_right _ (by norm_num)]
    have h3 : n - 500 - 2 = n - 502 := by omega
    rw [h3]
    omega

/-- Loop invariant of the device pagination loop on a monotonic, stable
backing collection with distinct identifiers: started at the offset just
past an already-accumulated prefix, with enough fuel, it returns the whole
collection and performs exactly `pagesFor (length of the suffix)` further
page fetches. -/
theorem getAllDevicesAux_pageFn :
    ∀ (fuel : Nat) (pre suf : List Device) (o cnt : Nat),
      ((pre ++ suf).map (fun d => d.id)).Nodup →
      1 ≤ o →
      (pre ++ suf).drop (o - 1) = suf →
      suf.length + 1 ≤ fuel →
      getAllDevicesAux (pageFn (pre ++ suf)) fuel o pre cnt =
        some (pre ++ suf, cnt + pagesFor suf.length) := by
  intro fuel
  induction fuel with
  | zero =>
    intro pre suf o cnt hnd ho hdrop hfl
    omega
  | succ fuel ih =>
    intro pre suf o cnt hnd ho hdrop hfl
    have hpage : pageFn (pre ++ suf)
        (((Pagination.builder.with_offset o).with_limit 500).build) = suf.take 500 := by
      show ((pre ++ suf).drop (o - 1)).take 500 = suf.take 500
      rw [hdrop]
    rcases suf with _ | ⟨a, _ | ⟨b, rest⟩⟩
    · have hp2 : pageFn (pre ++ ([] : List Device))
          (((Pagination.builder.with_offset o).with_limit 500).build) = [] := hpage
      rw [getAllDevicesAux_step, hp2]
      simp [pagesFor]
    · have hp2 : pageFn (pre ++ [a])
          (((Pagination.builder.with_offset o).with_limit 500).build) = [a] := hpage
      rw [getAllDevicesAux_step, hp2]
      show (if ((pre.find? (fun s => s.id == a.id)).isNone : Bool) then
              some (pre ++ [a], cnt + 1) else some (pre, cnt + 1)) =
          some (pre ++ [a], cnt + pagesFor [a].length)
      have hfind : pre.find? (fun s => s.id == a.id) = none := by
        apply List.find?_eq_none.mpr
        intro x hx hxa
        have hmem : a.id ∈ pre.map (fun d => d.id) :=
          List.mem_map.mpr ⟨x, hx, beq_iff_eq.mp hxa⟩
        have hnd2 := hnd
        rw [List.map_append, List.nodup_append] at hnd2
        exact hnd2.2.2 hmem (by simp)
      rw [hfind]
      simp [pagesFor]
    · have hp2 : pageFn (pre ++ (a :: b :: rest))
          (((Pagination.builder.with_offset o).with_limit 500).build) =
          a :: b :: rest.take 498 := hpage
      rw [getAllDevicesAux_step, hp2]
      show getAllDevicesAux (pageFn (pre ++ a :: b :: rest)) fuel (o + 500)
          (pre ++ (a :: b :: rest.take 498)) (cnt + 1) =
        some (pre ++ a :: b :: rest, cnt + pagesFor (a :: b :: rest).length)
      have heq : (pre ++ (a :: b :: rest).take 500) ++ (a :: b :: rest).drop 500 =
          pre ++ a :: b :: rest := by
        rw [List.append_assoc, List.take_append_drop]
      have hnd' : (((pre ++ (a :: b :: rest).take 500) ++ (a :: b :: rest).drop 500).map
          (fun d => d.id)).Nodup := by
        rw [heq]; exact hnd
      have hdrop' : ((pre ++ (a :: b :: rest).take 500) ++
          (a :: b :: rest).drop 500).drop (o + 500 - 1) = (a :: b :: rest).drop 500 := by
        rw [heq]
        have ho5 : o + 500 - 1 = (o - 1) + 500 := by omega
        rw [ho5, ← List.drop_drop, hdrop]
      have hfl' : ((a :: b :: rest).drop 500).length + 1 ≤ fuel := by
        have hlen := List.length_drop 500 (a :: b :: rest)
        have hlc : (a :: b :: rest).length = rest.length + 2 := by simp
        rw [hlc] at hlen hfl
        omega
      have hih := ih (pre ++ (a :: b :: rest).take 500) ((a :: b :: rest).drop 500)
        (o + 500) (cnt + 1) hnd' (by omega) hdrop' hfl'
      rw [heq] at hih
      rw [List.length_drop] at hih
      have hstep : pagesFor (a :: b :: rest).length =
          1 + pagesFor ((a :: b :: rest).length - 500) := by
        apply pagesFor_step
        simp
      rw [hstep]
      have harith : cnt + (1 + pagesFor ((a :: b :: rest).length - 500)) =
          (cnt + 1) + pagesFor ((a :: b :: rest).length - 500) := by omega
      rw [harith]
      exact hih

/-- C3: on a backing collection of `N` distinct-identifier items served by
the monotonic, stable page function with limit 500, the full fetch (for
any sufficient fuel, so the loop terminates) returns exactly the `N`-item
collection and performs `pagesFor N ≤ ⌈N/500⌉ + 1` page fetches — for
every `N`, including 0, 1, 499, 500, 501 and 1500. -/
theorem get_all_devices_pagination_termination :
    ∀ (coll : List Device) (fuel : Nat),
      (coll.map (fun d => d.id)).Nodup →
      coll.length + 1 ≤ fuel →
      Device.get_all_devices (pageFn coll) fuel = some (coll, pagesFor coll.length) ∧
      pagesFor coll.length ≤ (coll.length + 499) / 500 + 1 := by
  intro coll fuel hnd hfl
  constructor
  · have h := getAllDevicesAux_pageFn fuel [] coll 1 0 (by simpa using hnd)
      (le_refl 1) (by simp) hfl
    simpa [Device.get_all_devices] using h
  · exact pagesFor_le coll.length

/-- Witness for C3 on a two-device collection with fuel 3: the fetch
returns both devices in two page fetches, within the bound. -/
theorem get_all_devices_pagination_witness :
    Device.get_all_devices (pageFn [devA, devB]) 3 = some ([devA, devB], pagesFor 2) ∧
    pagesFor 2 ≤ (2 + 499) / 500 + 1 := by
  have h := get_all_devices_pagination_termination [devA, devB] 3 (by decide) (by decide)
  exact ⟨h.1, h.2⟩

end Dnac
